import Mathlib

/-!
# BoreMap persistence layer: a shallow embedding

This file embeds the LocalStorage persistence layer (`data/storage`) and the
project-state facade (`hooks/useProjects`) of the BoreMap application in Lean,
and proves the behavioural properties stated in the specification.

Modelling conventions:
* JavaScript `number` fields carry no arithmetic in the embedded operations,
  so they are represented by `Int`.
* ISO timestamp strings produced by `new Date().toISOString()` are abstracted
  to `Nat` time values passed in as a `now` parameter (their ordering mirrors
  the lexicographic ordering of equal-format ISO strings).
* `uuidv4()` results are passed in as explicit fresh-identifier parameters.
* The persisted medium (`localStorage` + `JSON.parse`/`JSON.stringify`) is
  modelled by `Medium`: the stored key may be absent, hold an undeserialisable
  blob, or hold a serialised project list.
* TS optional fields (`x?: T`) become `Option`; fields typed `T | null` also
  become `Option`, and a field that is both optional and nullable in a partial
  update becomes `Option (Option T)` (outer `none` = key absent / `undefined`,
  inner `none` = `null`).
-/

/-! ## Decimal rendering of numbers

Embeds the JavaScript template `` `BH${String(num).padStart(2, '0')}` ``:
`String(num)` is the decimal representation of the number (our loop counter is
a positive integer), and `padStart(2, '0')` left-pads it with `'0'` to length
at least 2. -/

/-- The decimal digit character of `d` (for `d < 10`), as produced by
JavaScript `String(...)`. -/
def digitChar : Nat → Char
  | 0 => '0' | 1 => '1' | 2 => '2' | 3 => '3' | 4 => '4'
  | 5 => '5' | 6 => '6' | 7 => '7' | 8 => '8' | _ => '9'

/-- Numeric value of a decimal digit character (inverse of `digitChar`). -/
def charVal (c : Char) : Nat :=
  if c = '1' then 1 else if c = '2' then 2 else if c = '3' then 3
  else if c = '4' then 4 else if c = '5' then 5 else if c = '6' then 6
  else if c = '7' then 7 else if c = '8' then 8 else if c = '9' then 9 else 0

/-- Digit-list worker, structurally recursive on a fuel argument so that it
reduces definitionally; `n / 10 < n` guarantees fuel `n` always suffices. -/
def decDigitsGo : Nat → Nat → List Char
  | 0, n => [digitChar n]
  | fuel + 1, n =>
    if n < 10 then [digitChar n]
    else decDigitsGo fuel (n / 10) ++ [digitChar (n % 10)]

/-- Decimal digit list of a natural number, most significant first: the
character content of JavaScript `String(num)` for a non-negative integer. -/
def decDigits (n : Nat) : List Char :=
  decDigitsGo n n

/-- Value of a decimal digit string (used only to prove `decDigits` injective). -/
def decVal (l : List Char) : Nat :=
  l.foldl (fun acc c => 10 * acc + charVal c) 0

/-- JavaScript `s.padStart(2, '0')` on the character list of `s`. -/
def padStart2 (l : List Char) : List Char :=
  List.replicate (2 - l.length) '0' ++ l

/-- The borehole code string `` `BH${String(num).padStart(2, '0')}` ``. -/
def codeFor (num : Nat) : String :=
  String.mk ('B' :: 'H' :: padStart2 (decDigits num))

/-- Recovers the number from a code string (drop `BH`, read the decimal value;
leading pad zeros do not affect the value). Only used to prove `codeFor`
injective. -/
def parseCode (s : String) : Nat :=
  decVal (s.data.drop 2)

/-! ## Domain types (`data/types`) -/

inductive CoordinateSystem where
  | wgs84
deriving DecidableEq, Repr

inductive BoreholeStatus where
  | planned
  | drilling
  | completed
  | abandoned
deriving DecidableEq, Repr

inductive ProjectStatus where
  | active
  | archived
deriving DecidableEq, Repr

/-- The `Borehole` interface. Optional (`?:`) and nullable fields are `Option`. -/
structure Borehole where
  id : String
  code : String
  name : Option String
  latitude : Int
  longitude : Int
  groundLevel : Option Int
  totalDepth : Option Int
  status : BoreholeStatus
  notes : Option String
  createdAt : Nat
  updatedAt : Nat
deriving DecidableEq, Repr

/-- The `Project` interface. -/
structure Project where
  id : String
  name : String
  client : Option String
  locationDescription : Option String
  coordinateSystem : CoordinateSystem
  boreholes : List Borehole
  createdAt : Nat
  updatedAt : Nat
  status : ProjectStatus
deriving DecidableEq, Repr

/-! ## The persisted medium

`localStorage` holds at most one string under the fixed storage key. For the
store's read path the only distinctions that matter are: no value present
(`getItem` returns `null`), a value that `JSON.parse` rejects, and a value
that deserialises to a project list. -/

inductive Medium where
  | absent
  | corrupt
  | stored (projects : List Project)
deriving DecidableEq, Repr

/-- The body of the `try` block of `getProjects`: `getItem` + falsy check +
`JSON.parse`. A `corrupt` medium makes `JSON.parse` throw, modelled as
`Except.error`. -/
def readStore : Medium → Except String (List Project)
  | .absent => .ok []
  | .corrupt => .error "Unexpected token in JSON"
  | .stored projects => .ok projects

/-- `getProjects`: the `catch` branch logs the error and returns `[]`. -/
def getProjects (m : Medium) : List Project :=
  match readStore m with
  | .ok projects => projects
  | .error _ => []

/-- `saveProjects`: `JSON.stringify` + `setItem` (successful write). -/
def saveProjects (projects : List Project) : Medium :=
  .stored projects

/-- `getProject`: linear `find` by id (`|| null` becomes `Option`). -/
def getProject (projectId : String) (m : Medium) : Option Project :=
  (getProjects m).find? (fun p => p.id == projectId)

/-! ## Store mutations -/

/-- JavaScript `s || dflt` where `s` is a possibly-undefined string: both
`undefined` and the empty string are falsy. -/
def jsOrStr (s : Option String) (dflt : String) : String :=
  match s with
  | none => dflt
  | some v => if v = "" then dflt else v

/-- Argument record of `createProject`. -/
structure CreateProjectData where
  name : String
  client : Option String
  locationDescription : Option String
  coordinateSystem : Option CoordinateSystem
deriving DecidableEq, Repr

/-- The project literal of `createProject`: `data.client || ''`,
`data.locationDescription || ''`, `data.coordinateSystem || 'WGS84'`, empty
boreholes, both timestamps `now`, status `Active`. -/
def createdProject (data : CreateProjectData) (newId : String) (now : Nat) :
    Project :=
  { id := newId
    name := data.name
    client := some (jsOrStr data.client "")
    locationDescription := some (jsOrStr data.locationDescription "")
    coordinateSystem := data.coordinateSystem.getD .wgs84
    boreholes := []
    createdAt := now
    updatedAt := now
    status := .active }

/-- `createProject`: builds the record (`uuidv4()` and `new Date()` passed in
as `newId` / `now`), `unshift`s it onto the collection and persists. -/
def createProject (data : CreateProjectData) (newId : String) (now : Nat)
    (m : Medium) : Project × Medium :=
  (createdProject data newId now,
   saveProjects (createdProject data newId now :: getProjects m))

/-- `Partial<Omit<Project, 'id' | 'createdAt' | 'boreholes'>>`: each field of
the outer `Option` is `none` when the key is absent from the partial object.
For fields already optional on `Project`, a present key may still carry
`undefined`, hence the nested `Option`. -/
structure ProjectUpdates where
  name : Option String
  client : Option (Option String)
  locationDescription : Option (Option String)
  coordinateSystem : Option CoordinateSystem
  updatedAt : Option Nat
  status : Option ProjectStatus
deriving DecidableEq, Repr

/-- The spread `{ ...projects[index], ...updates, updatedAt: now }`: fields
whose key is absent from `updates` keep their prior value; `id`, `createdAt`
and `boreholes` cannot appear in `updates` at all; the trailing `updatedAt`
stamp overwrites any `updatedAt` the spread may have written. -/
def applyProjectUpdates (p : Project) (u : ProjectUpdates) (now : Nat) : Project :=
  { id := p.id
    name := u.name.getD p.name
    client := u.client.getD p.client
    locationDescription := u.locationDescription.getD p.locationDescription
    coordinateSystem := u.coordinateSystem.getD p.coordinateSystem
    boreholes := p.boreholes
    createdAt := p.createdAt
    updatedAt := now
    status := u.status.getD p.status }

/-- `findIndex` + in-place replacement of the first project whose id matches:
returns the updated record and the updated list, or `none` if no id matches. -/
def updateProjectsGo (projectId : String) (u : ProjectUpdates) (now : Nat) :
    List Project → Option (Project × List Project)
  | [] => none
  | p :: rest =>
    if p.id = projectId then
      let p2 := applyProjectUpdates p u now
      some (p2, p2 :: rest)
    else
      match updateProjectsGo projectId u now rest with
      | none => none
      | some (q, rest2) => some (q, p :: rest2)

/-- `updateProject`: read, merge into the found record, persist; `null` and an
untouched medium when the id is not found. -/
def updateProject (projectId : String) (u : ProjectUpdates) (now : Nat)
    (m : Medium) : Option Project × Medium :=
  match updateProjectsGo projectId u now (getProjects m) with
  | none => (none, m)
  | some (p2, ps2) => (some p2, saveProjects ps2)

/-- The `while (existingCodes.includes(...)) num++` loop of
`generateBoreholeCode`, embedded with explicit fuel. `genLoop_spec` together
with `exists_unused_code` proves that fuel `existingCodes.length + 1` is never
exhausted, so this equals the unbounded source loop. -/
def genLoop (existingCodes : List String) : Nat → Nat → Nat
  | 0, num => num
  | fuel + 1, num =>
    if codeFor num ∈ existingCodes then genLoop existingCodes fuel (num + 1)
    else num

/-- `generateBoreholeCode`: scan from `num = 1` for the first unused code. -/
def generateBoreholeCode (project : Project) : String :=
  let existingCodes := project.boreholes.map (fun b => b.code)
  codeFor (genLoop existingCodes (existingCodes.length + 1) 1)

/-- Argument record of `addBorehole`: `latitude`/`longitude` required, the
rest optional (`groundLevel`/`totalDepth` additionally nullable). -/
structure AddBoreholeData where
  code : Option String
  name : Option String
  latitude : Int
  longitude : Int
  groundLevel : Option (Option Int)
  totalDepth : Option (Option Int)
  status : Option BoreholeStatus
  notes : Option String
deriving DecidableEq, Repr

/-- The borehole literal of `addBorehole`:
`data.code || generateBoreholeCode(project)`, `data.groundLevel ?? null`,
`data.status || 'Planned'`, `data.notes || ''`, both timestamps `now`. -/
def newBorehole (project : Project) (d : AddBoreholeData) (newId : String)
    (now : Nat) : Borehole :=
  { id := newId
    code := jsOrStr d.code (generateBoreholeCode project)
    name := d.name
    latitude := d.latitude
    longitude := d.longitude
    groundLevel := d.groundLevel.join
    totalDepth := d.totalDepth.join
    status := d.status.getD .planned
    notes := some (jsOrStr d.notes "")
    createdAt := now
    updatedAt := now }

/-- `find` the first project whose id matches, build the borehole literal,
`push` it and stamp the project's `updatedAt`. -/
def addBoreholeGo (projectId : String) (d : AddBoreholeData) (newId : String)
    (now : Nat) : List Project → Option (Borehole × List Project)
  | [] => none
  | p :: rest =>
    if p.id = projectId then
      let borehole := newBorehole p d newId now
      some (borehole, { p with boreholes := p.boreholes ++ [borehole], updatedAt := now } :: rest)
    else
      match addBoreholeGo projectId d newId now rest with
      | none => none
      | some (b, rest2) => some (b, p :: rest2)

/-- `addBorehole`: read, insert into the found project, persist; `null` and an
untouched medium when `projectId` is not found. -/
def addBorehole (projectId : String) (d : AddBoreholeData) (newId : String)
    (now : Nat) (m : Medium) : Option Borehole × Medium :=
  match addBoreholeGo projectId d newId now (getProjects m) with
  | none => (none, m)
  | some (b, ps2) => (some b, saveProjects ps2)

/-- `Partial<Omit<Borehole, 'id' | 'createdAt'>>`. -/
structure BoreholeUpdates where
  code : Option String
  name : Option (Option String)
  latitude : Option Int
  longitude : Option Int
  groundLevel : Option (Option Int)
  totalDepth : Option (Option Int)
  status : Option BoreholeStatus
  notes : Option (Option String)
  updatedAt : Option Nat
deriving DecidableEq, Repr

/-- The spread `{ ...boreholes[i], ...updates, updatedAt: now }`: `id` and
`createdAt` cannot appear in `updates`; the trailing stamp wins on
`updatedAt`. -/
def applyBoreholeUpdates (b : Borehole) (u : BoreholeUpdates) (now : Nat) : Borehole :=
  { id := b.id
    code := u.code.getD b.code
    name := u.name.getD b.name
    latitude := u.latitude.getD b.latitude
    longitude := u.longitude.getD b.longitude
    groundLevel := u.groundLevel.getD b.groundLevel
    totalDepth := u.totalDepth.getD b.totalDepth
    status := u.status.getD b.status
    notes := u.notes.getD b.notes
    createdAt := b.createdAt
    updatedAt := now }

/-- `findIndex` + in-place replacement of the first borehole whose id matches. -/
def updateBoreholesGo (boreholeId : String) (u : BoreholeUpdates) (now : Nat) :
    List Borehole → Option (Borehole × List Borehole)
  | [] => none
  | b :: rest =>
    if b.id = boreholeId then
      let b2 := applyBoreholeUpdates b u now
      some (b2, b2 :: rest)
    else
      match updateBoreholesGo boreholeId u now rest with
      | none => none
      | some (r, rest2) => some (r, b :: rest2)

/-- `find` the first project whose id matches, then merge into its matching
borehole and stamp the project's `updatedAt`; `none` when either lookup fails
(the source returns `null` before reaching `saveProjects`). -/
def updateBoreholeGo (projectId boreholeId : String) (u : BoreholeUpdates)
    (now : Nat) : List Project → Option (Borehole × List Project)
  | [] => none
  | p :: rest =>
    if p.id = projectId then
      match updateBoreholesGo boreholeId u now p.boreholes with
      | none => none
      | some (b2, bhs2) =>
        some (b2, { p with boreholes := bhs2, updatedAt := now } :: rest)
    else
      match updateBoreholeGo projectId boreholeId u now rest with
      | none => none
      | some (r, rest2) => some (r, p :: rest2)

/-- `updateBorehole`: read, merge, persist; `null` and an untouched medium
when either id is not found. -/
def updateBorehole (projectId boreholeId : String) (u : BoreholeUpdates)
    (now : Nat) (m : Medium) : Option Borehole × Medium :=
  match updateBoreholeGo projectId boreholeId u now (getProjects m) with
  | none => (none, m)
  | some (b2, ps2) => (some b2, saveProjects ps2)

/-- `find` the first project whose id matches, `filter` out the borehole; the
removal succeeds exactly when the filtered sequence got shorter (the source
compares lengths and returns `false` before `saveProjects` otherwise). -/
def deleteBoreholeGo (projectId boreholeId : String) (now : Nat) :
    List Project → Option (List Project)
  | [] => none
  | p :: rest =>
    if p.id = projectId then
      let filtered := p.boreholes.filter (fun b => b.id != boreholeId)
      if filtered.length = p.boreholes.length then none
      else some ({ p with boreholes := filtered, updatedAt := now } :: rest)
    else
      match deleteBoreholeGo projectId boreholeId now rest with
      | none => none
      | some rest2 => some (p :: rest2)

/-- `deleteBorehole`: read, remove, persist on success; `false` and an
untouched medium when nothing was removed. -/
def deleteBorehole (projectId boreholeId : String) (now : Nat) (m : Medium) :
    Bool × Medium :=
  match deleteBoreholeGo projectId boreholeId now (getProjects m) with
  | none => (false, m)
  | some ps2 => (true, saveProjects ps2)

/-! ## Application state facade (`hooks/useProjects`)

React state is modelled as an explicit `FacadeState`; a callback's reads of
state variables see the values captured at entry (`st`), and the last
`set...` call before returning determines the next state. -/

structure FacadeState where
  projects : List Project
  currentProject : Option Project
  selectedBorehole : Option Borehole
  isLoading : Bool
  error : Option String
deriving DecidableEq, Repr

/-- `loadProject`: `setCurrentProject(storage.getProject(id))`,
`setSelectedBorehole(null)`, `setError(null)`, loading toggled off. -/
def facadeLoadProject (projectId : String) (m : Medium) (st : FacadeState) :
    FacadeState :=
  { st with
    currentProject := getProject projectId m
    selectedBorehole := none
    error := none
    isLoading := false }

/-- Facade `updateBorehole`: no-op without a current project; otherwise run
the store update, reload the current project (which clears the selection),
then — testing the selection captured at entry — restore the selection from
the store's returned record when the edited borehole was the selected one and
the update succeeded. -/
def facadeUpdateBorehole (boreholeId : String) (u : BoreholeUpdates) (now : Nat)
    (st : FacadeState) (m : Medium) : FacadeState × Medium :=
  match st.currentProject with
  | none => (st, m)
  | some cp =>
    let r := updateBorehole cp.id boreholeId u now m
    let st2 := facadeLoadProject cp.id r.2 st
    let st3 :=
      match st.selectedBorehole, r.1 with
      | some sel, some updated =>
        if sel.id = boreholeId then { st2 with selectedBorehole := some updated }
        else st2
      | _, _ => st2
    (st3, r.2)

/-- Facade `deleteBorehole`: run the store delete, reload the current project,
and clear the selection when the deleted borehole was the selected one. -/
def facadeDeleteBorehole (boreholeId : String) (now : Nat)
    (st : FacadeState) (m : Medium) : FacadeState × Medium :=
  match st.currentProject with
  | none => (st, m)
  | some cp =>
    let r := deleteBorehole cp.id boreholeId now m
    let st2 := facadeLoadProject cp.id r.2 st
    let st3 :=
      match st.selectedBorehole with
      | some sel =>
        if sel.id = boreholeId then { st2 with selectedBorehole := none } else st2
      | none => st2
    (st3, r.2)

/-! ## Concrete records used to instantiate the theorems -/

/-- A borehole record with the given id and code and fixed remaining fields. -/
def sampleBorehole (ident code : String) : Borehole :=
  { id := ident
    code := code
    name := none
    latitude := 1
    longitude := 2
    groundLevel := none
    totalDepth := none
    status := .planned
    notes := some ""
    createdAt := 0
    updatedAt := 0 }

/-- A project record with the given id and boreholes. -/
def sampleProject (ident : String) (boreholes : List Borehole) : Project :=
  { id := ident
    name := "Sample"
    client := some ""
    locationDescription := some ""
    coordinateSystem := .wgs84
    boreholes := boreholes
    createdAt := 0
    updatedAt := 0
    status := .active }

/-- Project with no boreholes. -/
def projEmpty : Project := sampleProject "p-empty" []

/-- Project whose borehole codes are `BH01`, `BH02`, `BH04`. -/
def projGap : Project :=
  sampleProject "p-gap"
    [sampleBorehole "b1" "BH01", sampleBorehole "b2" "BH02", sampleBorehole "b4" "BH04"]

/-- Project whose borehole codes are `BH01` through `BH99`. -/
def projFull99 : Project :=
  sampleProject "p-99"
    ((List.range 99).map (fun i => sampleBorehole (codeFor (i + 1)) (codeFor (i + 1))))

/-- A partial borehole update that only sets `status := Completed`. -/
def statusCompletedUpdate : BoreholeUpdates :=
  { code := none
    name := none
    latitude := none
    longitude := none
    groundLevel := none
    totalDepth := none
    status := some .completed
    notes := none
    updatedAt := none }

/-- A partial project update that only sets `name := "Renamed"`. -/
def renameUpdate : ProjectUpdates :=
  { name := some "Renamed"
    client := none
    locationDescription := none
    coordinateSystem := none
    updatedAt := none
    status := none }

/-- `createProject` argument `{ name: "X" }`. -/
def cdX : CreateProjectData :=
  { name := "X"
    client := none
    locationDescription := none
    coordinateSystem := none }

/-- `addBorehole` argument supplying coordinates and an explicit empty-string
code. -/
def emptyCodeAdd : AddBoreholeData :=
  { code := some ""
    name := none
    latitude := -36
    longitude := 174
    groundLevel := none
    totalDepth := none
    status := none
    notes := none }

/-- `addBorehole` argument supplying coordinates and the explicit code
`BH01`, which already exists in `projGap`. -/
def dupCodeAdd : AddBoreholeData :=
  { code := some "BH01"
    name := none
    latitude := -36
    longitude := 174
    groundLevel := none
    totalDepth := none
    status := none
    notes := none }

/-- Facade state showing `projGap` with its first borehole selected. -/
def stGap : FacadeState :=
  { projects := [projGap]
    currentProject := some projGap
    selectedBorehole := some (sampleBorehole "b1" "BH01")
    isLoading := false
    error := none }

/-! # Theorems -/

/-! ## Decimal-rendering lemmas -/

theorem charVal_digitChar : ∀ d, d < 10 → charVal (digitChar d) = d := by decide

theorem decVal_append_singleton (l : List Char) (c : Char) :
    decVal (l ++ [c]) = 10 * decVal l + charVal c := by
  simp [decVal, List.foldl_append]

theorem decVal_decDigitsGo (fuel : Nat) :
    ∀ n, n ≤ fuel → decVal (decDigitsGo fuel n) = n := by
  induction fuel with
  | zero =>
    intro n hn
    have h0 : n = 0 := by omega
    subst h0
    decide
  | succ fuel ih =>
    intro n hn
    by_cases h : n < 10
    · have e : decDigitsGo (fuel + 1) n = [digitChar n] := by simp [decDigitsGo, h]
      rw [e]
      have : decVal [digitChar n] = charVal (digitChar n) := by
        simp [decVal, List.foldl]
      rw [this, charVal_digitChar n h]
    · have e : decDigitsGo (fuel + 1) n =
          decDigitsGo fuel (n / 10) ++ [digitChar (n % 10)] := by
        simp [decDigitsGo, h]
      rw [e, decVal_append_singleton, ih (n / 10) (by omega),
        charVal_digitChar (n % 10) (by omega)]
      omega

theorem decVal_decDigits (n : Nat) : decVal (decDigits n) = n :=
  decVal_decDigitsGo n n (Nat.le_refl n)

theorem decVal_replicate_zero (k : Nat) (l : List Char) :
    decVal (List.replicate k '0' ++ l) = decVal l := by
  induction k with
  | zero => simp
  | succ k ih =>
    have e : List.replicate (k + 1) '0' ++ l = '0' :: (List.replicate k '0' ++ l) := by
      simp [List.replicate_succ]
    rw [e]
    simpa [decVal, charVal] using ih

theorem parseCode_codeFor (n : Nat) : parseCode (codeFor n) = n := by
  show decVal ((('B' :: 'H' :: padStart2 (decDigits n)) : List Char).drop 2) = n
  simp only [List.drop_succ_cons, List.drop_zero, padStart2]
  rw [decVal_replicate_zero, decVal_decDigits]

theorem codeFor_injective : Function.Injective codeFor :=
  Function.LeftInverse.injective parseCode_codeFor

theorem codeFor_ne_empty (n : Nat) : codeFor n ≠ "" := by
  intro h
  have hd := congrArg String.data h
  simp [codeFor] at hd

/-! ## The code-generation loop -/

/-- If some candidate within the fuel budget is unused, the loop stops at the
first unused candidate, and every candidate before it is used. -/
theorem genLoop_spec (codes : List String) :
    ∀ fuel n, (∃ k, k < fuel ∧ codeFor (n + k) ∉ codes) →
      ∃ k, k < fuel ∧ genLoop codes fuel n = n + k ∧ codeFor (n + k) ∉ codes ∧
        ∀ j, j < k → codeFor (n + j) ∈ codes := by
  intro fuel
  induction fuel with
  | zero =>
    intro n h
    obtain ⟨k, hk, _⟩ := h
    omega
  | succ fuel ih =>
    intro n h
    by_cases hm : codeFor n ∈ codes
    · obtain ⟨k, hk, hfree⟩ := h
      match k, hk, hfree with
      | 0, _, hfree => exact absurd hm (by simpa using hfree)
      | k + 1, hk, hfree =>
        have hfree1 : codeFor (n + 1 + k) ∉ codes := by
          have e : n + 1 + k = n + (k + 1) := by omega
          rw [e]
          exact hfree
        obtain ⟨k2, hk2, heq, hfree2, hall⟩ := ih (n + 1) ⟨k, by omega, hfree1⟩
        refine ⟨k2 + 1, by omega, ?_, ?_, ?_⟩
        · have e : genLoop codes (fuel + 1) n = genLoop codes fuel (n + 1) := by
            simp [genLoop, hm]
          rw [e, heq]
          omega
        · have e : n + (k2 + 1) = n + 1 + k2 := by omega
          rw [e]
          exact hfree2
        · intro j hj
          match j, hj with
          | 0, _ => simpa using hm
          | j + 1, hj =>
            have e : n + (j + 1) = n + 1 + j := by omega
            rw [e]
            exact hall j (by omega)
    · refine ⟨0, by omega, ?_, by simpa using hm, by omega⟩
      simp [genLoop, hm]

/-- Pigeonhole: among `codes.length + 1` consecutive candidate numbers, at
least one renders to a code outside `codes` (codes of distinct numbers are
distinct). -/
theorem exists_unused_code (codes : List String) (n : Nat) :
    ∃ k, k < codes.length + 1 ∧ codeFor (n + k) ∉ codes := by
  by_contra hcon
  push_neg at hcon
  have hinj : Function.Injective (fun k : Nat => codeFor (n + k)) := by
    intro a b hab
    have := codeFor_injective hab
    omega
  have hnd : ((List.range (codes.length + 1)).map (fun k => codeFor (n + k))).Nodup :=
    List.Nodup.map hinj (List.nodup_range (codes.length + 1))
  have hsub : ((List.range (codes.length + 1)).map (fun k => codeFor (n + k))) ⊆ codes := by
    intro x hx
    simp only [List.mem_map, List.mem_range] at hx
    obtain ⟨k, hk, rfl⟩ := hx
    exact hcon k hk
  have hle := (List.subperm_of_subset hnd hsub).length_le
  simp only [List.length_map, List.length_range] at hle
  omega

/-- `generateBoreholeCode` returns the code of `1 + k` where `k` is minimal
with that code unused, and `k` stays within the number of boreholes. -/
theorem generateBoreholeCode_spec (project : Project) :
    ∃ k, k ≤ project.boreholes.length ∧
      generateBoreholeCode project = codeFor (1 + k) ∧
      codeFor (1 + k) ∉ project.boreholes.map (fun b => b.code) ∧
      ∀ j, j < k → codeFor (1 + j) ∈ project.boreholes.map (fun b => b.code) := by
  obtain ⟨k, hk, heq, hfree, hall⟩ :=
    genLoop_spec (project.boreholes.map (fun b => b.code))
      ((project.boreholes.map (fun b => b.code)).length + 1) 1
      (exists_unused_code (project.boreholes.map (fun b => b.code)) 1)
  refine ⟨k, ?_, ?_, hfree, hall⟩
  · have : (project.boreholes.map (fun b => b.code)).length =
        project.boreholes.length := List.length_map _ _
    omega
  · simp only [generateBoreholeCode]
    exact congrArg codeFor heq

/-! ## Claims about `generateBoreholeCode` -/

/-- C1: For every project, `generateBoreholeCode` returns the lowest-numbered
`BH` code (2-digit zero-padded) not already present among the project's
borehole codes; it returns `BH01` for an empty borehole sequence, `BH03` when
the existing codes are `BH01`, `BH02`, `BH04` (lowest unused gap, not max+1),
and numbering continues past 99 (`BH100`) with no upper bound. -/
theorem claim_c1_generateBoreholeCode_lowest_unused (project : Project) :
    (∃ n, 1 ≤ n ∧ generateBoreholeCode project = codeFor n ∧
        codeFor n ∉ project.boreholes.map (fun b => b.code) ∧
        ∀ m, 1 ≤ m → m < n → codeFor m ∈ project.boreholes.map (fun b => b.code)) ∧
    (project.boreholes = [] → generateBoreholeCode project = "BH01") ∧
    (project.boreholes.map (fun b => b.code) = ["BH01", "BH02", "BH04"] →
      generateBoreholeCode project = "BH03") ∧
    (project.boreholes.map (fun b => b.code) =
        (List.range 99).map (fun i => codeFor (i + 1)) →
      generateBoreholeCode project = "BH100") := by
  obtain ⟨k, _, heq, hfree, hall⟩ := generateBoreholeCode_spec project
  refine ⟨⟨1 + k, by omega, heq, hfree, ?_⟩, ?_, ?_, ?_⟩
  · intro m h1 hm
    have e : m = 1 + (m - 1) := by omega
    rw [e]
    exact hall (m - 1) (by omega)
  · intro h
    simp only [generateBoreholeCode, h]
    decide
  · intro h
    simp only [generateBoreholeCode, h]
    decide
  · intro h
    simp only [generateBoreholeCode, h]
    decide

/-- Witness for C1 at three concrete projects: empty, the `BH01 BH02 BH04`
gap, and a full `BH01`–`BH99` sequence. -/
theorem claim_c1_witness :
    generateBoreholeCode projEmpty = "BH01" ∧
    generateBoreholeCode projGap = "BH03" ∧
    generateBoreholeCode projFull99 = "BH100" :=
  ⟨(claim_c1_generateBoreholeCode_lowest_unused projEmpty).2.1 (by decide),
   (claim_c1_generateBoreholeCode_lowest_unused projGap).2.2.1 (by decide),
   (claim_c1_generateBoreholeCode_lowest_unused projFull99).2.2.2 (by decide)⟩

/-- C9: For every project, the code-scanning loop terminates after trying at
most `boreholes.length + 1` candidate numbers: the returned code is
`codeFor (1 + k)` for some `k ≤ boreholes.length`, the first candidate whose
code is not among the project's codes. -/
theorem claim_c9_generateBoreholeCode_terminates (project : Project) :
    ∃ k, k ≤ project.boreholes.length ∧
      generateBoreholeCode project = codeFor (1 + k) ∧
      codeFor (1 + k) ∉ project.boreholes.map (fun b => b.code) ∧
      ∀ j, j < k → codeFor (1 + j) ∈ project.boreholes.map (fun b => b.code) :=
  generateBoreholeCode_spec project

/-! ## `updateProject` (claim C2) -/

theorem updateProjectsGo_eq_none (projectId : String) (u : ProjectUpdates)
    (now : Nat) : ∀ l : List Project, (∀ p ∈ l, p.id ≠ projectId) →
      updateProjectsGo projectId u now l = none := by
  intro l h
  induction l with
  | nil => rfl
  | cons p rest ih =>
    have hp : ¬ p.id = projectId := h p (by simp)
    have hrest := ih (fun q hq => h q (by simp [hq]))
    simp [updateProjectsGo, hp, hrest]

theorem updateProjectsGo_eq_some (projectId : String) (u : ProjectUpdates)
    (now : Nat) : ∀ (l1 : List Project) (p0 : Project) (l2 : List Project),
      (∀ q ∈ l1, q.id ≠ projectId) → p0.id = projectId →
      updateProjectsGo projectId u now (l1 ++ p0 :: l2) =
        some (applyProjectUpdates p0 u now,
          l1 ++ applyProjectUpdates p0 u now :: l2) := by
  intro l1
  induction l1 with
  | nil =>
    intro p0 l2 _ hp0
    simp [updateProjectsGo, hp0]
  | cons q l1 ih =>
    intro p0 l2 h1 hp0
    have hq : ¬ q.id = projectId := h1 q (by simp)
    have hrest := ih p0 l2 (fun r hr => h1 r (by simp [hr])) hp0
    simp [updateProjectsGo, hq, hrest]

/-- C2: For every stored project and every partial-fields argument,
`updateProject` merges the partial fields into the found record; `id`,
`createdAt` and `boreholes` keep their prior values regardless of the
argument (the update type excludes them); `updatedAt` is stamped to `now`;
the result is persisted and the updated record returned. If no stored
project has the id, the call returns `none` and the medium is unchanged. -/
theorem claim_c2_updateProject_whitelist (projectId : String)
    (u : ProjectUpdates) (now : Nat) (m : Medium) :
    ((∀ p ∈ getProjects m, p.id ≠ projectId) →
      updateProject projectId u now m = (none, m)) ∧
    (∀ l1 p0 l2, getProjects m = l1 ++ p0 :: l2 →
      (∀ q ∈ l1, q.id ≠ projectId) → p0.id = projectId →
      ∃ p1, updateProject projectId u now m =
          (some p1, saveProjects (l1 ++ p1 :: l2)) ∧
        p1.id = p0.id ∧ p1.createdAt = p0.createdAt ∧
        p1.boreholes = p0.boreholes ∧ p1.updatedAt = now ∧
        p1.name = u.name.getD p0.name ∧
        p1.client = u.client.getD p0.client ∧
        p1.locationDescription = u.locationDescription.getD p0.locationDescription ∧
        p1.coordinateSystem = u.coordinateSystem.getD p0.coordinateSystem ∧
        p1.status = u.status.getD p0.status) := by
  constructor
  · intro h
    simp [updateProject, updateProjectsGo_eq_none projectId u now _ h]
  · intro l1 p0 l2 hm h1 hp0
    refine ⟨applyProjectUpdates p0 u now, ?_,
      rfl, rfl, rfl, rfl, rfl, rfl, rfl, rfl, rfl⟩
    simp [updateProject, hm,
      updateProjectsGo_eq_some projectId u now l1 p0 l2 h1 hp0]

/-- Witness for C2: a miss leaves the medium untouched; renaming `projGap`
keeps `id`, `createdAt`, `boreholes`, stamps `updatedAt = 5`, and persists. -/
theorem claim_c2_witness :
    updateProject "nope" renameUpdate 5 (Medium.stored [projGap]) =
      (none, Medium.stored [projGap]) ∧
    ∃ p1, updateProject "p-gap" renameUpdate 5 (Medium.stored [projGap]) =
        (some p1, saveProjects [p1]) ∧
      p1.id = projGap.id ∧ p1.createdAt = projGap.createdAt ∧
      p1.boreholes = projGap.boreholes ∧ p1.updatedAt = 5 ∧
      p1.name = "Renamed" := by
  constructor
  · exact (claim_c2_updateProject_whitelist "nope" renameUpdate 5
      (Medium.stored [projGap])).1 (by decide)
  · obtain ⟨p1, heq, hid, hcr, hbh, hup, hname, -⟩ :=
      (claim_c2_updateProject_whitelist "p-gap" renameUpdate 5
        (Medium.stored [projGap])).2 [] projGap [] rfl (by simp) rfl
    exact ⟨p1, by simpa using heq, hid, hcr, hbh, hup, by rw [hname]; rfl⟩

/-! ## `createProject` (claim C4) -/

/-- C4: `createProject` returns a record with the fresh id, equal creation
and update stamps, status `Active`, empty boreholes and the supplied name;
the record is prepended to the stored collection, so the collection after the
call contains it exactly once (given the id is fresh), in first position, and
`getProject` on the new id finds it. -/
theorem claim_c4_createProject_prepends (data : CreateProjectData)
    (newId : String) (now : Nat) (m : Medium)
    (hfresh : ∀ q ∈ getProjects m, q.id ≠ newId) :
    ∃ P, createProject data newId now m = (P, saveProjects (P :: getProjects m)) ∧
      P.id = newId ∧ P.createdAt = now ∧ P.updatedAt = now ∧
      P.status = .active ∧ P.boreholes = [] ∧ P.name = data.name ∧
      getProjects (createProject data newId now m).2 = P :: getProjects m ∧
      (getProjects (createProject data newId now m).2).count P = 1 ∧
      (getProjects (createProject data newId now m).2).head? = some P ∧
      getProject newId (createProject data newId now m).2 = some P := by
  refine ⟨createdProject data newId now, rfl, rfl, rfl, rfl, rfl, rfl, rfl,
    by rfl, ?_, by rfl, ?_⟩
  · show (createdProject data newId now :: getProjects m).count
      (createdProject data newId now) = 1
    rw [List.count_cons_self]
    have hnot : createdProject data newId now ∉ getProjects m := by
      intro hmem
      exact hfresh _ hmem rfl
    rw [List.count_eq_zero.2 hnot]
  · show (createdProject data newId now :: getProjects m).find?
      (fun p => p.id == newId) = some (createdProject data newId now)
    exact List.find?_cons_of_pos _ (by simp [createdProject])

/-- Witness for C4: creating `{name := "X"}` on an empty store. -/
theorem claim_c4_witness :
    (createProject cdX "id-1" 3 Medium.absent).1.name = "X" ∧
    (createProject cdX "id-1" 3 Medium.absent).1.status = ProjectStatus.active ∧
    (createProject cdX "id-1" 3 Medium.absent).1.boreholes = [] ∧
    (getProjects (createProject cdX "id-1" 3 Medium.absent).2).count
      (createProject cdX "id-1" 3 Medium.absent).1 = 1 ∧
    (getProjects (createProject cdX "id-1" 3 Medium.absent).2).head? =
      some (createProject cdX "id-1" 3 Medium.absent).1 ∧
    getProject "id-1" (createProject cdX "id-1" 3 Medium.absent).2 =
      some (createProject cdX "id-1" 3 Medium.absent).1 := by
  obtain ⟨P, heq, -, -, -, hst, hbh, hname, -, hcount, hhead, hget⟩ :=
    claim_c4_createProject_prepends cdX "id-1" 3 Medium.absent (by simp [getProjects, readStore])
  have h1 : (createProject cdX "id-1" 3 Medium.absent).1 = P := by rw [heq]
  rw [h1]
  exact ⟨hname, hst, hbh, hcount, hhead, hget⟩

/-! ## `addBorehole` (claims C3 and C10) -/

theorem addBoreholeGo_eq_none (projectId : String) (d : AddBoreholeData)
    (newId : String) (now : Nat) :
    ∀ l : List Project, (∀ p ∈ l, p.id ≠ projectId) →
      addBoreholeGo projectId d newId now l = none := by
  intro l h
  induction l with
  | nil => rfl
  | cons p rest ih =>
    have hp : ¬ p.id = projectId := h p (by simp)
    have hrest := ih (fun q hq => h q (by simp [hq]))
    simp [addBoreholeGo, hp, hrest]

theorem addBoreholeGo_eq_some (projectId : String) (d : AddBoreholeData)
    (newId : String) (now : Nat) :
    ∀ (l1 : List Project) (p0 : Project) (l2 : List Project),
      (∀ q ∈ l1, q.id ≠ projectId) → p0.id = projectId →
      addBoreholeGo projectId d newId now (l1 ++ p0 :: l2) =
        some (newBorehole p0 d newId now,
          l1 ++ { p0 with
            boreholes := p0.boreholes ++ [newBorehole p0 d newId now],
            updatedAt := now } :: l2) := by
  intro l1
  induction l1 with
  | nil =>
    intro p0 l2 _ hp0
    simp [addBoreholeGo, hp0]
  | cons q l1 ih =>
    intro p0 l2 h1 hp0
    have hq : ¬ q.id = projectId := h1 q (by simp)
    have hrest := ih p0 l2 (fun r hr => h1 r (by simp [hr])) hp0
    simp [addBoreholeGo, hq, hrest]

theorem addBoreholeGo_some_shape (projectId : String) (d : AddBoreholeData)
    (newId : String) (now : Nat) :
    ∀ (l : List Project) (bh : Borehole) (l2 : List Project),
      addBoreholeGo projectId d newId now l = some (bh, l2) →
      ∃ p0, bh = newBorehole p0 d newId now := by
  intro l
  induction l with
  | nil =>
    intro bh l2 h
    simp [addBoreholeGo] at h
  | cons p rest ih =>
    intro bh l2 h
    by_cases hp : p.id = projectId
    · refine ⟨p, ?_⟩
      simp [addBoreholeGo, hp] at h
      exact h.1.symm
    · simp only [addBoreholeGo, hp, if_false] at h
      cases hgo : addBoreholeGo projectId d newId now rest with
      | none => rw [hgo] at h; exact absurd h (by simp)
      | some br =>
        rw [hgo] at h
        obtain ⟨b, r2⟩ := br
        simp at h
        obtain ⟨hb, -⟩ := h
        exact hb ▸ ih b r2 hgo

theorem generateBoreholeCode_ne_empty (project : Project) :
    generateBoreholeCode project ≠ "" := by
  simp only [generateBoreholeCode]
  exact codeFor_ne_empty _

theorem jsOrStr_ne_empty (s : Option String) (dflt : String) (h : dflt ≠ "") :
    jsOrStr s dflt ≠ "" := by
  cases s with
  | none => simpa [jsOrStr] using h
  | some v =>
    by_cases hv : v = ""
    · simpa [jsOrStr, hv] using h
    · simp [jsOrStr, hv]

/-- Counterexample to C3 as stated: an explicitly supplied empty-string code
is NOT accepted as-is — `data.code || generateBoreholeCode(project)` treats
`""` as falsy, so the stored code is the auto-generated `BH03`, not `""`. -/
theorem claim_c3_counterexample :
    emptyCodeAdd.code = some "" ∧
    ((addBorehole "p-gap" emptyCodeAdd "b-new" 5 (Medium.stored [projGap])).1.map
      (fun b => b.code)) = some "BH03" ∧
    ((addBorehole "p-gap" emptyCodeAdd "b-new" 5 (Medium.stored [projGap])).1.map
      (fun b => b.code)) ≠ some "" :=
  ⟨rfl, by decide, by decide⟩

/-- C3 (amended): `addBorehole` on a found project returns a borehole whose
code is auto-generated when absent or empty-string, and equals any non-empty
explicitly supplied code as-is (even a duplicate); status defaults to
`Planned`, `groundLevel`/`totalDepth` to `null` when absent or `undefined`,
notes to `""`; `createdAt = updatedAt = now`; the borehole is appended at the
end of the found project's sequence with the prior order preserved; the
owning project's `updatedAt` is stamped and the result persisted. A missing
`projectId` returns `none` with the medium unchanged. -/
theorem claim_c3_addBorehole_defaults (projectId : String) (d : AddBoreholeData)
    (newId : String) (now : Nat) (m : Medium) :
    ((∀ p ∈ getProjects m, p.id ≠ projectId) →
      addBorehole projectId d newId now m = (none, m)) ∧
    (∀ l1 p0 l2, getProjects m = l1 ++ p0 :: l2 →
      (∀ q ∈ l1, q.id ≠ projectId) → p0.id = projectId →
      ∃ bh, addBorehole projectId d newId now m =
          (some bh, saveProjects (l1 ++ { p0 with
            boreholes := p0.boreholes ++ [bh], updatedAt := now } :: l2)) ∧
        (d.code = none → bh.code = generateBoreholeCode p0) ∧
        (∀ c, d.code = some c → c ≠ "" → bh.code = c) ∧
        (d.code = some "" → bh.code = generateBoreholeCode p0) ∧
        (d.status = none → bh.status = .planned) ∧
        (d.groundLevel = none → bh.groundLevel = none) ∧
        (d.groundLevel = some none → bh.groundLevel = none) ∧
        (d.totalDepth = none → bh.totalDepth = none) ∧
        (d.totalDepth = some none → bh.totalDepth = none) ∧
        (d.notes = none → bh.notes = some "") ∧
        bh.createdAt = now ∧ bh.updatedAt = now ∧
        bh.latitude = d.latitude ∧ bh.longitude = d.longitude ∧
        bh.id = newId) := by
  constructor
  · intro h
    simp [addBorehole, addBoreholeGo_eq_none projectId d newId now _ h]
  · intro l1 p0 l2 hm h1 hp0
    refine ⟨newBorehole p0 d newId now, ?_, ?_, ?_, ?_, ?_, ?_, ?_, ?_, ?_, ?_,
      rfl, rfl, rfl, rfl, rfl⟩
    · simp [addBorehole, hm,
        addBoreholeGo_eq_some projectId d newId now l1 p0 l2 h1 hp0]
    · intro hc
      simp [newBorehole, jsOrStr, hc]
    · intro c hc hne
      simp [newBorehole, jsOrStr, hc, hne]
    · intro hc
      simp [newBorehole, jsOrStr, hc]
    · intro hs
      simp [newBorehole, hs]
    · intro hg
      simp [newBorehole, hg]
    · intro hg
      simp [newBorehole, hg]
    · intro ht
      simp [newBorehole, ht]
    · intro ht
      simp [newBorehole, ht]
    · intro hn
      simp [newBorehole, jsOrStr, hn]

/-- Witness for the amended C3: a miss leaves the medium untouched, and the
explicitly supplied duplicate code `BH01` is stored as-is on `projGap`. -/
theorem claim_c3_witness :
    addBorehole "zzz" dupCodeAdd "b-new" 5 (Medium.stored [projGap]) =
      (none, Medium.stored [projGap]) ∧
    ((addBorehole "p-gap" dupCodeAdd "b-new" 5 (Medium.stored [projGap])).1.map
      (fun b => b.code)) = some "BH01" := by
  constructor
  · exact (claim_c3_addBorehole_defaults "zzz" dupCodeAdd "b-new" 5
      (Medium.stored [projGap])).1 (by decide)
  · obtain ⟨bh, heq, -, hc, -⟩ :=
      (claim_c3_addBorehole_defaults "p-gap" dupCodeAdd "b-new" 5
        (Medium.stored [projGap])).2 [] projGap [] rfl (by simp) rfl
    have h1 : (addBorehole "p-gap" dupCodeAdd "b-new" 5
        (Medium.stored [projGap])).1 = some bh := by rw [heq]
    rw [h1]
    simp [hc "BH01" rfl (by decide)]

/-- C10: no borehole created through `addBorehole` ever carries an empty
code — an explicitly supplied empty-string code is treated exactly like an
absent one and replaced by `generateBoreholeCode` of the found project — and
an absent status is stored as `Planned`. -/
theorem claim_c10_empty_code_autogenerated (projectId : String)
    (d : AddBoreholeData) (newId : String) (now : Nat) (m : Medium) :
    (∀ bh, (addBorehole projectId d newId now m).1 = some bh →
      bh.code ≠ "" ∧ (d.status = none → bh.status = .planned)) ∧
    (d.code = some "" →
      ∀ l1 p0 l2, getProjects m = l1 ++ p0 :: l2 →
        (∀ q ∈ l1, q.id ≠ projectId) → p0.id = projectId →
        ∀ bh, (addBorehole projectId d newId now m).1 = some bh →
          bh.code = generateBoreholeCode p0) := by
  constructor
  · intro bh hbh
    cases hgo : addBoreholeGo projectId d newId now (getProjects m) with
    | none =>
      rw [addBorehole, hgo] at hbh
      exact absurd hbh (by simp)
    | some br =>
      obtain ⟨b, ps2⟩ := br
      rw [addBorehole, hgo] at hbh
      simp at hbh
      obtain ⟨p0, hshape⟩ :=
        addBoreholeGo_some_shape projectId d newId now (getProjects m) b ps2 hgo
      subst hbh
      subst hshape
      constructor
      · exact jsOrStr_ne_empty _ _ (generateBoreholeCode_ne_empty p0)
      · intro hs
        simp [newBorehole, hs]
  · intro hc l1 p0 l2 hm h1 hp0 bh hbh
    have hgo := addBoreholeGo_eq_some projectId d newId now l1 p0 l2 h1 hp0
    rw [addBorehole, hm, hgo] at hbh
    simp at hbh
    subst hbh
    simp [newBorehole, jsOrStr, hc]

/-- Witness for C10: the empty-string-code call on `projGap` stores the
auto-generated code (`BH03`), never an empty code, with status `Planned`. -/
theorem claim_c10_witness :
    (newBorehole projGap emptyCodeAdd "b-new" 5).code ≠ "" ∧
    (newBorehole projGap emptyCodeAdd "b-new" 5).status = BoreholeStatus.planned ∧
    (newBorehole projGap emptyCodeAdd "b-new" 5).code = generateBoreholeCode projGap := by
  have h := (claim_c10_empty_code_autogenerated "p-gap" emptyCodeAdd "b-new" 5
    (Medium.stored [projGap])).1 (newBorehole projGap emptyCodeAdd "b-new" 5) (by decide)
  have h2 := (claim_c10_empty_code_autogenerated "p-gap" emptyCodeAdd "b-new" 5
    (Medium.stored [projGap])).2 rfl [] projGap [] rfl (by simp) rfl
    (newBorehole projGap emptyCodeAdd "b-new" 5) (by decide)
  exact ⟨h.1, h.2 rfl, h2⟩

/-! ## `updateBorehole` (claim C5) -/

theorem updateBoreholesGo_eq_some (boreholeId : String) (u : BoreholeUpdates)
    (now : Nat) :
    ∀ (m1 : List Borehole) (b0 : Borehole) (m2 : List Borehole),
      (∀ c ∈ m1, c.id ≠ boreholeId) → b0.id = boreholeId →
      updateBoreholesGo boreholeId u now (m1 ++ b0 :: m2) =
        some (applyBoreholeUpdates b0 u now,
          m1 ++ applyBoreholeUpdates b0 u now :: m2) := by
  intro m1
  induction m1 with
  | nil =>
    intro b0 m2 _ hb0
    simp [updateBoreholesGo, hb0]
  | cons c m1 ih =>
    intro b0 m2 h1 hb0
    have hc : ¬ c.id = boreholeId := h1 c (by simp)
    have hrest := ih b0 m2 (fun r hr => h1 r (by simp [hr])) hb0
    simp [updateBoreholesGo, hc, hrest]

theorem updateBoreholeGo_eq_some (projectId boreholeId : String)
    (u : BoreholeUpdates) (now : Nat) :
    ∀ (l1 : List Project) (p0 : Project) (l2 : List Project),
      (∀ q ∈ l1, q.id ≠ projectId) → p0.id = projectId →
      ∀ (m1 : List Borehole) (b0 : Borehole) (m2 : List Borehole),
        p0.boreholes = m1 ++ b0 :: m2 →
        (∀ c ∈ m1, c.id ≠ boreholeId) → b0.id = boreholeId →
        updateBoreholeGo projectId boreholeId u now (l1 ++ p0 :: l2) =
          some (applyBoreholeUpdates b0 u now,
            l1 ++ { p0 with
              boreholes := m1 ++ applyBoreholeUpdates b0 u now :: m2,
              updatedAt := now } :: l2) := by
  intro l1
  induction l1 with
  | nil =>
    intro p0 l2 _ hp0 m1 b0 m2 hbs hm1 hb0
    have hinner := updateBoreholesGo_eq_some boreholeId u now m1 b0 m2 hm1 hb0
    simp [updateBoreholeGo, hp0, hbs, hinner]
  | cons q l1 ih =>
    intro p0 l2 h1 hp0 m1 b0 m2 hbs hm1 hb0
    have hq : ¬ q.id = projectId := h1 q (by simp)
    have hrest := ih p0 l2 (fun r hr => h1 r (by simp [hr])) hp0 m1 b0 m2 hbs hm1 hb0
    simp [updateBoreholeGo, hq, hrest]

/-- C5: On an existing borehole, `updateBorehole` with `{status: Completed}`
leaves every other borehole field (`id`, `code`, `name`, `latitude`,
`longitude`, `groundLevel`, `totalDepth`, `notes`, `createdAt`) unchanged,
sets the borehole's `updatedAt` to a strictly greater value (given time moved
forward), stamps the owning project's `updatedAt`, and persists. -/
theorem claim_c5_updateBorehole_frame (projectId boreholeId : String)
    (now : Nat) (m : Medium) (l1 : List Project) (p0 : Project)
    (l2 : List Project) (m1 : List Borehole) (b0 : Borehole)
    (m2 : List Borehole)
    (hm : getProjects m = l1 ++ p0 :: l2) (hl1 : ∀ q ∈ l1, q.id ≠ projectId)
    (hp0 : p0.id = projectId) (hbs : p0.boreholes = m1 ++ b0 :: m2)
    (hm1 : ∀ c ∈ m1, c.id ≠ boreholeId) (hb0 : b0.id = boreholeId)
    (htime : b0.updatedAt < now) :
    ∃ b1, updateBorehole projectId boreholeId statusCompletedUpdate now m =
        (some b1, saveProjects (l1 ++ { p0 with
          boreholes := m1 ++ b1 :: m2, updatedAt := now } :: l2)) ∧
      b1.status = .completed ∧
      b1.id = b0.id ∧ b1.code = b0.code ∧ b1.name = b0.name ∧
      b1.latitude = b0.latitude ∧ b1.longitude = b0.longitude ∧
      b1.groundLevel = b0.groundLevel ∧ b1.totalDepth = b0.totalDepth ∧
      b1.notes = b0.notes ∧ b1.createdAt = b0.createdAt ∧
      b0.updatedAt < b1.updatedAt := by
  refine ⟨applyBoreholeUpdates b0 statusCompletedUpdate now, ?_, rfl, rfl, rfl,
    rfl, rfl, rfl, rfl, rfl, rfl, rfl, ?_⟩
  · simp [updateBorehole, hm, updateBoreholeGo_eq_some projectId boreholeId
      statusCompletedUpdate now l1 p0 l2 hl1 hp0 m1 b0 m2 hbs hm1 hb0]
  · exact htime

/-- Witness for C5 at `projGap`'s first borehole with `now = 7`. -/
theorem claim_c5_witness :
    ((updateBorehole "p-gap" "b1" statusCompletedUpdate 7
      (Medium.stored [projGap])).1.map (fun b => b.status)) =
        some BoreholeStatus.completed ∧
    ((updateBorehole "p-gap" "b1" statusCompletedUpdate 7
      (Medium.stored [projGap])).1.map (fun b => b.code)) = some "BH01" ∧
    ((updateBorehole "p-gap" "b1" statusCompletedUpdate 7
      (Medium.stored [projGap])).1.map (fun b => b.updatedAt)) = some 7 ∧
    (sampleBorehole "b1" "BH01").updatedAt < 7 := by
  obtain ⟨b1, heq, hst, hid, hcode, hname, hlat, hlng, hgl, htd, hnotes, hcr, hlt⟩ :=
    claim_c5_updateBorehole_frame "p-gap" "b1" 7 (Medium.stored [projGap])
      [] projGap [] [] (sampleBorehole "b1" "BH01")
      [sampleBorehole "b2" "BH02", sampleBorehole "b4" "BH04"]
      rfl (by simp) rfl rfl (by simp) rfl (by decide)
  have h1 : (updateBorehole "p-gap" "b1" statusCompletedUpdate 7
      (Medium.stored [projGap])).1 = some b1 := by rw [heq]
  have hb1 : b1 = applyBoreholeUpdates (sampleBorehole "b1" "BH01")
      statusCompletedUpdate 7 :=
    Option.some.inj (h1.symm.trans (by decide))
  subst hb1
  refine ⟨?_, ?_, ?_, hlt⟩
  · rw [h1]
    decide
  · rw [h1]
    decide
  · rw [h1]
    decide

/-! ## `deleteBorehole` (claim C6) -/

theorem deleteBoreholeGo_eq_none_of_no_project (projectId boreholeId : String)
    (now : Nat) :
    ∀ l : List Project, (∀ p ∈ l, p.id ≠ projectId) →
      deleteBoreholeGo projectId boreholeId now l = none := by
  intro l h
  induction l with
  | nil => rfl
  | cons p rest ih =>
    have hp : ¬ p.id = projectId := h p (by simp)
    have hrest := ih (fun q hq => h q (by simp [hq]))
    simp [deleteBoreholeGo, hp, hrest]

theorem deleteBoreholeGo_eq_none_of_no_borehole (projectId boreholeId : String)
    (now : Nat) :
    ∀ (l1 : List Project) (p0 : Project) (l2 : List Project),
      (∀ q ∈ l1, q.id ≠ projectId) → p0.id = projectId →
      (∀ b ∈ p0.boreholes, b.id ≠ boreholeId) →
      deleteBoreholeGo projectId boreholeId now (l1 ++ p0 :: l2) = none := by
  intro l1
  induction l1 with
  | nil =>
    intro p0 l2 _ hp0 hnone
    have hfix : p0.boreholes.filter (fun b => b.id != boreholeId) = p0.boreholes :=
      List.filter_eq_self.2 (fun b hb => by simp [hnone b hb])
    simp [deleteBoreholeGo, hp0, hfix]
  | cons q l1 ih =>
    intro p0 l2 h1 hp0 hnone
    have hq : ¬ q.id = projectId := h1 q (by simp)
    have hrest := ih p0 l2 (fun r hr => h1 r (by simp [hr])) hp0 hnone
    simp [deleteBoreholeGo, hq, hrest]

theorem deleteBoreholeGo_eq_some (projectId boreholeId : String) (now : Nat) :
    ∀ (l1 : List Project) (p0 : Project) (l2 : List Project),
      (∀ q ∈ l1, q.id ≠ projectId) → p0.id = projectId →
      (∃ b ∈ p0.boreholes, b.id = boreholeId) →
      deleteBoreholeGo projectId boreholeId now (l1 ++ p0 :: l2) =
        some (l1 ++ { p0 with
          boreholes := p0.boreholes.filter (fun b => b.id != boreholeId),
          updatedAt := now } :: l2) := by
  intro l1
  induction l1 with
  | nil =>
    intro p0 l2 _ hp0 hex
    obtain ⟨b, hb, hbid⟩ := hex
    have hne : ¬ ((p0.boreholes.filter (fun b => b.id != boreholeId)).length =
        p0.boreholes.length) := by
      intro heq
      have := List.filter_length_eq_length.1 heq b hb
      simp [hbid] at this
    simp [deleteBoreholeGo, hp0, hne]
  | cons q l1 ih =>
    intro p0 l2 h1 hp0 hex
    have hq : ¬ q.id = projectId := h1 q (by simp)
    have hrest := ih p0 l2 (fun r hr => h1 r (by simp [hr])) hp0 hex
    simp [deleteBoreholeGo, hq, hrest]

/-- C6: `deleteBorehole` with no matching borehole (project absent, or the
found project has no borehole with the id) returns `false` and leaves the
persisted medium untouched — no `updatedAt` stamp, no write. With a match it
removes the borehole, stamps the owning project's `updatedAt`, persists, and
returns `true`. -/
theorem claim_c6_deleteBorehole_miss_no_write (projectId boreholeId : String)
    (now : Nat) (m : Medium) :
    ((∀ p ∈ getProjects m, p.id ≠ projectId) →
      deleteBorehole projectId boreholeId now m = (false, m)) ∧
    (∀ l1 p0 l2, getProjects m = l1 ++ p0 :: l2 →
      (∀ q ∈ l1, q.id ≠ projectId) → p0.id = projectId →
      ((∀ b ∈ p0.boreholes, b.id ≠ boreholeId) →
        deleteBorehole projectId boreholeId now m = (false, m)) ∧
      ((∃ b ∈ p0.boreholes, b.id = boreholeId) →
        deleteBorehole projectId boreholeId now m =
          (true, saveProjects (l1 ++ { p0 with
            boreholes := p0.boreholes.filter (fun b => b.id != boreholeId),
            updatedAt := now } :: l2)))) := by
  refine ⟨?_, ?_⟩
  · intro h
    simp [deleteBorehole,
      deleteBoreholeGo_eq_none_of_no_project projectId boreholeId now _ h]
  · intro l1 p0 l2 hm h1 hp0
    constructor
    · intro hnone
      simp [deleteBorehole, hm,
        deleteBoreholeGo_eq_none_of_no_borehole projectId boreholeId now
          l1 p0 l2 h1 hp0 hnone]
    · intro hex
      simp [deleteBorehole, hm,
        deleteBoreholeGo_eq_some projectId boreholeId now l1 p0 l2 h1 hp0 hex]

/-- Witness for C6: a miss on `projGap` returns `false` with the medium
byte-for-byte unchanged; deleting borehole `b1` succeeds, filters it out and
stamps the project. -/
theorem claim_c6_witness :
    deleteBorehole "p-gap" "zz" 7 (Medium.stored [projGap]) =
      (false, Medium.stored [projGap]) ∧
    deleteBorehole "nope" "b1" 7 (Medium.stored [projGap]) =
      (false, Medium.stored [projGap]) ∧
    deleteBorehole "p-gap" "b1" 7 (Medium.stored [projGap]) =
      (true, saveProjects [{ projGap with
        boreholes := projGap.boreholes.filter (fun b => b.id != "b1"),
        updatedAt := 7 }]) := by
  refine ⟨?_, ?_, ?_⟩
  · exact ((claim_c6_deleteBorehole_miss_no_write "p-gap" "zz" 7
      (Medium.stored [projGap])).2 [] projGap [] rfl (by simp) rfl).1 (by decide)
  · exact (claim_c6_deleteBorehole_miss_no_write "nope" "b1" 7
      (Medium.stored [projGap])).1 (by decide)
  · have h := ((claim_c6_deleteBorehole_miss_no_write "p-gap" "b1" 7
      (Medium.stored [projGap])).2 [] projGap [] rfl (by simp) rfl).2
      ⟨sampleBorehole "b1" "BH01", by decide, rfl⟩
    simpa using h

/-! ## `getProjects` read path (claim C7) -/

/-- C7: `getProjects` returns the persisted collection when it deserialises,
and an empty sequence when the store is absent or corrupt; a deserialisation
failure (`readStore` raising) is swallowed — `getProjects` still returns a
value, namely the empty list — rather than propagated. -/
theorem claim_c7_getProjects_total (ps : List Project) :
    getProjects (Medium.stored ps) = ps ∧
    getProjects Medium.absent = [] ∧
    getProjects Medium.corrupt = [] ∧
    (∀ m e, readStore m = Except.error e → getProjects m = []) := by
  refine ⟨rfl, rfl, rfl, ?_⟩
  intro m e h
  simp [getProjects, h]

/-- Witness for C7: the corrupt medium raises in `readStore` yet
`getProjects` returns `[]`. -/
theorem claim_c7_witness :
    getProjects Medium.corrupt = [] :=
  (claim_c7_getProjects_total []).2.2.2 Medium.corrupt
    "Unexpected token in JSON" rfl

/-! ## Facade selection refresh (claim C8) -/

/-- C8: After a successful facade `updateBorehole` whose borehole id equals
the selected borehole's id, `selectedBorehole` holds exactly the record the
store returned from the merge (never the stale pre-update object); after a
facade `deleteBorehole` of the selected borehole, the selection is cleared. -/
theorem claim_c8_facade_selection_refresh (boreholeId : String)
    (u : BoreholeUpdates) (now : Nat) (st : FacadeState) (m : Medium)
    (cp : Project) (sel : Borehole)
    (hcp : st.currentProject = some cp) (hsel : st.selectedBorehole = some sel)
    (hid : sel.id = boreholeId) :
    (∀ ub, (updateBorehole cp.id boreholeId u now m).1 = some ub →
      (facadeUpdateBorehole boreholeId u now st m).1.selectedBorehole = some ub) ∧
    (facadeDeleteBorehole boreholeId now st m).1.selectedBorehole = none := by
  constructor
  · intro ub hub
    simp [facadeUpdateBorehole, hcp, hsel, hub, hid, facadeLoadProject]
  · simp [facadeDeleteBorehole, hcp, hsel, hid, facadeLoadProject]

/-- Witness for C8 on `stGap`: the selection becomes the merged record after
the update, and is cleared after the delete. -/
theorem claim_c8_witness :
    (facadeUpdateBorehole "b1" statusCompletedUpdate 7 stGap
      (Medium.stored [projGap])).1.selectedBorehole =
      some (applyBoreholeUpdates (sampleBorehole "b1" "BH01")
        statusCompletedUpdate 7) ∧
    (facadeDeleteBorehole "b1" 7 stGap
      (Medium.stored [projGap])).1.selectedBorehole = none := by
  have h := claim_c8_facade_selection_refresh "b1" statusCompletedUpdate 7
    stGap (Medium.stored [projGap]) projGap (sampleBorehole "b1" "BH01")
    rfl rfl rfl
  exact ⟨h.1 _ (by decide), h.2⟩
